import Mathlib

/-
Verification of the particle-fluid simulation (src/hooks/useParticleSystem.ts,
src/hooks/useHandTracking.ts) against its natural-language specification.

Real-valued JavaScript arithmetic is modelled over ℝ (the pointer force uses
Math.sqrt / Math.atan2 / Math.cos / Math.sin); the pixel arithmetic of the
motion estimator is exact integer/rational arithmetic and is modelled over
ℤ and ℚ.  Math.random() draws are modelled as an explicit stream of values
in [0, 1).
-/

namespace ParticleFluid

/-! ## Data model (useParticleSystem.ts) -/

/-- Particle record, as in the `Particle` interface of useParticleSystem.ts. -/
structure Particle where
  x : ℝ
  y : ℝ
  vx : ℝ
  vy : ℝ
  radius : ℝ
  color : String
  alpha : ℝ
  life : ℝ
  maxLife : ℝ

instance : Inhabited Particle := ⟨⟨0, 0, 0, 0, 0, "", 0, 0, 0⟩⟩

/-- Pointer state, as in the `HandPosition` interface of useParticleSystem.ts. -/
structure HandPosition where
  x : ℝ
  y : ℝ
  isOpen : Bool

/-- Fixed five-entry colour palette `PARTICLE_COLORS` of useParticleSystem.ts. -/
def PARTICLE_COLORS : List String :=
  ["hsl(185, 100%, 55%)",
   "hsl(210, 100%, 60%)",
   "hsl(270, 80%, 65%)",
   "hsl(195, 100%, 50%)",
   "hsl(240, 80%, 60%)"]

/-! ## Initialization (initParticles) -/

/-- One particle built by the loop body of `initParticles`; `r k` is the k-th
`Math.random()` draw used for this particle, in source order
(x, y, vx, vy, radius, color index, alpha, life, maxLife). -/
noncomputable def mkParticle (r : ℕ → ℝ) (width height : ℝ) : Particle :=
  { x := r 0 * width
    y := r 1 * height
    vx := (r 2 - 0.5) * 2
    vy := (r 3 - 0.5) * 2
    radius := r 4 * 3 + 1
    color := PARTICLE_COLORS.getD (Int.floor (r 5 * (PARTICLE_COLORS.length : ℝ))).toNat default
    alpha := r 6 * 0.5 + 0.5
    life := r 7 * 100
    maxLife := 100 + r 8 * 100 }

/-- The particle list built by `initParticles(width, height)`: `count` particles,
particle i consuming the nine draws `rng (9*i) .. rng (9*i+8)`. -/
noncomputable def initParticles (rng : ℕ → ℝ) (width height : ℝ) (count : ℕ) :
    List Particle :=
  (List.range count).map (fun i => mkParticle (fun k => rng (9 * i + k)) width height)

/-- Assignment `particlesRef.current = particles` at the end of `initParticles`:
the freshly built list replaces the previous contents of the store wholesale. -/
noncomputable def initStore (_oldStore : List Particle) (rng : ℕ → ℝ)
    (width height : ℝ) (count : ℕ) : List Particle :=
  initParticles rng width height count

/-! ## Pointer force (updateParticles, hand-interaction block) -/

/-- Two-argument arctangent `Math.atan2(y, x)`, modelled as the argument of the
complex number x + y i. -/
noncomputable def atan2 (y x : ℝ) : ℝ := Complex.arg ⟨x, y⟩

/-- Hand-interaction block of `updateParticles`: if a hand position is present
and the particle lies at distance `0 < d < interactionRadius` from it, add the
radial force contribution to the velocity; otherwise leave the particle alone. -/
noncomputable def applyHand (interactionRadius interactionStrength : ℝ)
    (hand : Option HandPosition) (p : Particle) : Particle :=
  match hand with
  | none => p
  | some hand =>
    let dx := p.x - hand.x
    let dy := p.y - hand.y
    let distance := Real.sqrt (dx * dx + dy * dy)
    if distance < interactionRadius ∧ distance > 0 then
      let force := (interactionRadius - distance) / interactionRadius
      let angle := atan2 dy dx
      let direction : ℝ := if hand.isOpen then 1 else -1
      { p with
        vx := p.vx + Real.cos angle * force * interactionStrength * direction
        vy := p.vy + Real.sin angle * force * interactionStrength * direction }
    else p

/-! ## Helper lemmas about atan2 -/

theorem cos_atan2 (y x : ℝ) (h : ¬(x = 0 ∧ y = 0)) :
    Real.cos (atan2 y x) = x / Real.sqrt (x * x + y * y) := by
  have hz : (⟨x, y⟩ : ℂ) ≠ 0 := by
    intro hc
    exact h ⟨congrArg Complex.re hc, congrArg Complex.im hc⟩
  have := Complex.cos_arg hz
  rwa [Complex.abs_apply, Complex.normSq_mk] at this

theorem sin_atan2 (y x : ℝ) :
    Real.sin (atan2 y x) = y / Real.sqrt (x * x + y * y) := by
  have := Complex.sin_arg (⟨x, y⟩ : ℂ)
  rwa [Complex.abs_apply, Complex.normSq_mk] at this

theorem atan2_zero_pos (x : ℝ) (hx : 0 ≤ x) : atan2 0 x = 0 := by
  have hx' : (⟨x, 0⟩ : ℂ) = (x : ℂ) := Complex.ext rfl rfl
  rw [atan2, hx', Complex.arg_ofReal_of_nonneg hx]

/-- Closed form of the hand-interaction block when the distance is strictly
between 0 and the interaction radius. -/
theorem applyHand_in_range (R S : ℝ) (hand : HandPosition) (p : Particle) (d : ℝ)
    (hd : Real.sqrt ((p.x - hand.x) * (p.x - hand.x) +
      (p.y - hand.y) * (p.y - hand.y)) = d)
    (h0 : 0 < d) (hR : d < R) :
    applyHand R S (some hand) p =
      { p with
        vx := p.vx + Real.cos (atan2 (p.y - hand.y) (p.x - hand.x)) *
          ((R - d) / R) * S * (if hand.isOpen then 1 else -1)
        vy := p.vy + Real.sin (atan2 (p.y - hand.y) (p.x - hand.x)) *
          ((R - d) / R) * S * (if hand.isOpen then 1 else -1) } := by
  simp only [applyHand]
  rw [hd, if_pos ⟨hR, h0⟩]

/-! ## Reference scenario of the spec (pointer at (200,200), particle at (250,200)) -/

/-- Pointer of the reference scenario of the spec, at (200, 200). -/
noncomputable def scenarioHand (isOpen : Bool) : HandPosition := ⟨200, 200, isOpen⟩

/-- Particle of the reference scenario of the spec, at rest at (250, 200). -/
noncomputable def scenarioParticle : Particle := ⟨250, 200, 0, 0, 2, "", 1, 0, 100⟩

theorem scenario_dist (b : Bool) :
    Real.sqrt ((scenarioParticle.x - (scenarioHand b).x) *
        (scenarioParticle.x - (scenarioHand b).x) +
      (scenarioParticle.y - (scenarioHand b).y) *
        (scenarioParticle.y - (scenarioHand b).y)) = 50 := by
  show Real.sqrt (((250:ℝ) - 200) * (250 - 200) + (200 - 200) * (200 - 200)) = 50
  rw [show (((250:ℝ) - 200) * (250 - 200) + (200 - 200) * (200 - 200)) = 50 * 50 by
    norm_num]
  exact Real.sqrt_mul_self (by norm_num)

/-- C1 (counterexample). In the reference scenario (interactionRadius 150,
interactionStrength 0.5, pointer (200,200) closed, particle (250,200)), the
pointer force does NOT change the x-velocity by +1/3: the claimed value
cos(π)·((150−50)/150)·0.5·(−1) = +1/3 uses the wrong angle, since
atan2(0, +50) = 0, not π. -/
theorem C1_counterexample :
    (applyHand 150 0.5 (some (scenarioHand false)) scenarioParticle).vx ≠
      scenarioParticle.vx + 1 / 3 := by
  rw [applyHand_in_range 150 0.5 (scenarioHand false) scenarioParticle 50
    (scenario_dist false) (by norm_num) (by norm_num)]
  show scenarioParticle.vx +
      Real.cos (atan2 (scenarioParticle.y - (scenarioHand false).y)
        (scenarioParticle.x - (scenarioHand false).x)) * ((150 - 50) / 150) * 0.5 *
      (if (scenarioHand false).isOpen then 1 else -1) ≠ scenarioParticle.vx + 1 / 3
  have hy : scenarioParticle.y - (scenarioHand false).y = 0 := by
    show (200:ℝ) - 200 = 0; norm_num
  have hx : scenarioParticle.x - (scenarioHand false).x = 50 := by
    show (250:ℝ) - 200 = 50; norm_num
  rw [hy, hx, atan2_zero_pos 50 (by norm_num), Real.cos_zero]
  show (0:ℝ) + 1 * ((150 - 50) / 150) * 0.5 * (if false then 1 else -1) ≠ 0 + 1 / 3
  norm_num

/-- C1 (amended). In the reference scenario, one application of the pointer
force changes the x-velocity by exactly
cos(atan2(0, 50))·((150−50)/150)·0.5·(−1) = −1/3: the particle is accelerated
leftward, toward the pointer. -/
theorem C1_amended :
    (applyHand 150 0.5 (some (scenarioHand false)) scenarioParticle).vx =
      scenarioParticle.vx - 1 / 3 := by
  rw [applyHand_in_range 150 0.5 (scenarioHand false) scenarioParticle 50
    (scenario_dist false) (by norm_num) (by norm_num)]
  show scenarioParticle.vx +
      Real.cos (atan2 (scenarioParticle.y - (scenarioHand false).y)
        (scenarioParticle.x - (scenarioHand false).x)) * ((150 - 50) / 150) * 0.5 *
      (if (scenarioHand false).isOpen then 1 else -1) = scenarioParticle.vx - 1 / 3
  have hy : scenarioParticle.y - (scenarioHand false).y = 0 := by
    show (200:ℝ) - 200 = 0; norm_num
  have hx : scenarioParticle.x - (scenarioHand false).x = 50 := by
    show (250:ℝ) - 200 = 50; norm_num
  rw [hy, hx, atan2_zero_pos 50 (by norm_num), Real.cos_zero]
  show (0:ℝ) + 1 * ((150 - 50) / 150) * 0.5 * (if false then 1 else -1) = 0 - 1 / 3
  norm_num

/-- Closed form of the velocity delta produced by the hand-interaction block
when the distance is strictly between 0 and the interaction radius: the
trigonometric form (cos/sin of atan2) equals the radial unit vector scaled by
force, strength and direction. -/
theorem applyHand_delta (R S : ℝ) (hand : HandPosition) (p : Particle)
    (h0 : 0 < Real.sqrt ((p.x - hand.x) * (p.x - hand.x) +
      (p.y - hand.y) * (p.y - hand.y)))
    (hR : Real.sqrt ((p.x - hand.x) * (p.x - hand.x) +
      (p.y - hand.y) * (p.y - hand.y)) < R) :
    (applyHand R S (some hand) p).vx - p.vx =
      (p.x - hand.x) / Real.sqrt ((p.x - hand.x) * (p.x - hand.x) +
        (p.y - hand.y) * (p.y - hand.y)) *
      ((R - Real.sqrt ((p.x - hand.x) * (p.x - hand.x) +
        (p.y - hand.y) * (p.y - hand.y))) / R) * S *
      (if hand.isOpen then 1 else -1) ∧
    (applyHand R S (some hand) p).vy - p.vy =
      (p.y - hand.y) / Real.sqrt ((p.x - hand.x) * (p.x - hand.x) +
        (p.y - hand.y) * (p.y - hand.y)) *
      ((R - Real.sqrt ((p.x - hand.x) * (p.x - hand.x) +
        (p.y - hand.y) * (p.y - hand.y))) / R) * S *
      (if hand.isOpen then 1 else -1) := by
  have hne : ¬(p.x - hand.x = 0 ∧ p.y - hand.y = 0) := by
    rintro ⟨h1, h2⟩
    rw [h1, h2] at h0
    simp at h0
  rw [applyHand_in_range R S hand p _ rfl h0 hR]
  dsimp only
  rw [cos_atan2 _ _ hne, sin_atan2]
  constructor <;> ring

/-- C6. For a particle at distance 0 < d < interactionRadius from the pointer,
the pointer-force velocity delta has positive inner product with
(particle − pointer) when the hand is open (push away), negative when closed
(pull toward), and magnitude ((R − d)/R)·S. -/
theorem C6_pointer_force_sign_magnitude (R S : ℝ) (hand : HandPosition)
    (p : Particle) (hS : 0 < S)
    (h0 : 0 < Real.sqrt ((p.x - hand.x) * (p.x - hand.x) +
      (p.y - hand.y) * (p.y - hand.y)))
    (hR : Real.sqrt ((p.x - hand.x) * (p.x - hand.x) +
      (p.y - hand.y) * (p.y - hand.y)) < R) :
    (hand.isOpen = true →
      0 < ((applyHand R S (some hand) p).vx - p.vx) * (p.x - hand.x) +
        ((applyHand R S (some hand) p).vy - p.vy) * (p.y - hand.y)) ∧
    (hand.isOpen = false →
      ((applyHand R S (some hand) p).vx - p.vx) * (p.x - hand.x) +
        ((applyHand R S (some hand) p).vy - p.vy) * (p.y - hand.y) < 0) ∧
    Real.sqrt (((applyHand R S (some hand) p).vx - p.vx) ^ 2 +
        ((applyHand R S (some hand) p).vy - p.vy) ^ 2) =
      (R - Real.sqrt ((p.x - hand.x) * (p.x - hand.x) +
        (p.y - hand.y) * (p.y - hand.y))) / R * S := by
  have hq : 0 ≤ (p.x - hand.x) * (p.x - hand.x) + (p.y - hand.y) * (p.y - hand.y) :=
    add_nonneg (mul_self_nonneg _) (mul_self_nonneg _)
  obtain ⟨e1, e2⟩ := applyHand_delta R S hand p h0 hR
  set dx := p.x - hand.x with hdx
  set dy := p.y - hand.y with hdy
  set d := Real.sqrt (dx * dx + dy * dy) with hd
  have hdd : d * d = dx * dx + dy * dy := Real.mul_self_sqrt hq
  have hdne : d ≠ 0 := ne_of_gt h0
  have hRpos : 0 < R := lt_trans h0 hR
  have hfpos : 0 < (R - d) / R := div_pos (by linarith) hRpos
  refine ⟨?_, ?_, ?_⟩
  · intro hopen
    rw [e1, e2, hopen]
    simp only [if_true]
    have hcalc : dx / d * ((R - d) / R) * S * 1 * dx +
        dy / d * ((R - d) / R) * S * 1 * dy =
        (dx * dx + dy * dy) * ((R - d) / R * S) / d := by ring
    rw [hcalc, ← hdd]
    exact div_pos (mul_pos (mul_pos h0 h0) (mul_pos hfpos hS)) h0
  · intro hclosed
    rw [e1, e2, hclosed]
    simp only [Bool.false_eq_true, if_false]
    have hcalc : dx / d * ((R - d) / R) * S * (-1) * dx +
        dy / d * ((R - d) / R) * S * (-1) * dy =
        -((dx * dx + dy * dy) * ((R - d) / R * S) / d) := by ring
    rw [hcalc, ← hdd]
    have := div_pos (mul_pos (mul_pos h0 h0) (mul_pos hfpos hS)) h0
    linarith
  · rw [e1, e2]
    have hsq : ∀ dir : ℝ, dir ^ 2 = 1 →
        (dx / d * ((R - d) / R) * S * dir) ^ 2 +
          (dy / d * ((R - d) / R) * S * dir) ^ 2 = ((R - d) / R * S) ^ 2 := by
      intro dir hdir
      have hexp : (dx / d * ((R - d) / R) * S * dir) ^ 2 +
          (dy / d * ((R - d) / R) * S * dir) ^ 2 =
          (dx * dx + dy * dy) * (((R - d) / R * S) ^ 2 * dir ^ 2) / (d * d) := by
        ring
      rw [hexp, ← hdd, hdir, mul_one, mul_comm (d * d), mul_div_assoc,
        div_self (mul_ne_zero hdne hdne), mul_one]
    have hdir : (if hand.isOpen then (1:ℝ) else -1) ^ 2 = 1 := by
      cases hand.isOpen <;> norm_num
    rw [hsq _ hdir, Real.sqrt_sq (le_of_lt (mul_pos hfpos hS))]

/-- C6 (witness). Concrete instance: open pointer at (200,200), particle at
(250,200), R = 150, S = 1/2. -/
theorem C6_witness :
    ((0:ℝ) < 1 / 2) ∧
    (0 < Real.sqrt ((scenarioParticle.x - (scenarioHand true).x) *
        (scenarioParticle.x - (scenarioHand true).x) +
      (scenarioParticle.y - (scenarioHand true).y) *
        (scenarioParticle.y - (scenarioHand true).y))) ∧
    (Real.sqrt ((scenarioParticle.x - (scenarioHand true).x) *
        (scenarioParticle.x - (scenarioHand true).x) +
      (scenarioParticle.y - (scenarioHand true).y) *
        (scenarioParticle.y - (scenarioHand true).y)) < 150) ∧
    ((scenarioHand true).isOpen = true →
      0 < ((applyHand 150 (1/2) (some (scenarioHand true)) scenarioParticle).vx -
          scenarioParticle.vx) * (scenarioParticle.x - (scenarioHand true).x) +
        ((applyHand 150 (1/2) (some (scenarioHand true)) scenarioParticle).vy -
          scenarioParticle.vy) * (scenarioParticle.y - (scenarioHand true).y)) := by
  refine ⟨by norm_num, ?_, ?_, ?_⟩
  · rw [scenario_dist true]; norm_num
  · rw [scenario_dist true]; norm_num
  · exact (C6_pointer_force_sign_magnitude 150 (1/2) (scenarioHand true)
      scenarioParticle (by norm_num)
      (by rw [scenario_dist true]; norm_num)
      (by rw [scenario_dist true]; norm_num)).1

/-- C7. A particle exactly coincident with the pointer receives no
pointer-force velocity change that tick: the guard `distance > 0` fails and
the particle is returned unchanged (in particular no component is altered at
all by the pointer-force block). -/
theorem C7_zero_distance_guard (R S : ℝ) (hand : HandPosition) (p : Particle)
    (hx : p.x = hand.x) (hy : p.y = hand.y) :
    applyHand R S (some hand) p = p := by
  simp [applyHand, hx, hy]

/-- C7 (witness). A pointer placed exactly at (250,200), on top of the
scenario particle, leaves it unchanged. -/
theorem C7_witness :
    applyHand 150 (1/2) (some ⟨250, 200, true⟩) scenarioParticle =
      scenarioParticle :=
  C7_zero_distance_guard 150 (1/2) ⟨250, 200, true⟩ scenarioParticle rfl rfl

/-! ## Full integration tick (updateParticles) -/

/-- Body of the inner `particles.forEach((other) => ...)` separation loop of
`updateParticles`: `jo` is the other particle with its array index, `i` the
index of the particle being updated (the source skips `other` when it is
reference-equal to `particle`, i.e. when the indices agree), `acc` the
current state of the particle. -/
noncomputable def sepBody (i : ℕ) (acc : Particle) (jo : ℕ × Particle) : Particle :=
  if jo.1 = i then acc
  else
    let dx := jo.2.x - acc.x
    let dy := jo.2.y - acc.y
    let distance := Real.sqrt (dx * dx + dy * dy)
    if distance < 20 ∧ distance > 0 then
      let force := (20 - distance) / 20 * 0.05
      { acc with
        vx := acc.vx - dx / distance * force
        vy := acc.vy - dy / distance * force }
    else acc

/-- Separation-force pass of `updateParticles` for the particle at index `i`,
folding `sepBody` over the current array (earlier indices already updated
in place by the enclosing loop). -/
noncomputable def applySeparation (arr : List Particle) (i : ℕ) (p : Particle) :
    Particle :=
  arr.enum.foldl (sepBody i) p

/-- Tail of the per-particle body of `updateParticles`: velocity damping (×0.98),
gravity (vy += 0.02), position integration, the four boundary-collision
branches (clamp and invert-damp the velocity by −0.5), and the lifecycle tick
(`alphaDraw` is the `Math.random()` value drawn if the particle life wraps). -/
noncomputable def finishParticle (width height alphaDraw : ℝ) (p : Particle) :
    Particle :=
  let vx1 := p.vx * 0.98
  let vy1 := p.vy * 0.98 + 0.02
  let x1 := p.x + vx1
  let y1 := p.y + vy1
  let x2 := if x1 < 0 then 0 else x1
  let vx2 := if x1 < 0 then vx1 * (-0.5) else vx1
  let x3 := if x2 > width then width else x2
  let vx3 := if x2 > width then vx2 * (-0.5) else vx2
  let y2 := if y1 < 0 then 0 else y1
  let vy2 := if y1 < 0 then vy1 * (-0.5) else vy1
  let y3 := if y2 > height then height else y2
  let vy3 := if y2 > height then vy2 * (-0.5) else vy2
  let life1 := p.life + 1
  if life1 > p.maxLife then
    { p with x := x3, y := y3, vx := vx3, vy := vy3, life := 0,
             alpha := alphaDraw * 0.5 + 0.5 }
  else
    { p with x := x3, y := y3, vx := vx3, vy := vy3, life := life1 }

/-- Complete per-particle body of `updateParticles` for the particle at array
index `i`, reading the current array state `arr`. -/
noncomputable def stepOne (R S width height : ℝ) (hand : Option HandPosition)
    (alphaDraw : ℝ) (arr : List Particle) (i : ℕ) : Particle :=
  finishParticle width height alphaDraw
    (applySeparation arr i (applyHand R S hand (arr.getD i default)))

/-- The in-place `particles.forEach` of `updateParticles`: process indices
`i, i+1, ...` for `fuel` steps, each step writing the updated particle back
into the array before the next index is processed. -/
noncomputable def updateAux (R S width height : ℝ) (hand : Option HandPosition)
    (rng : ℕ → ℝ) : ℕ → ℕ → List Particle → List Particle
  | 0, _, arr => arr
  | fuel + 1, i, arr =>
    updateAux R S width height hand rng fuel (i + 1)
      (arr.set i (stepOne R S width height hand (rng i) arr i))

/-- One tick of `updateParticles(width, height)`: sequentially update every
particle in place, first to last. -/
noncomputable def updateParticles (R S : ℝ) (hand : Option HandPosition)
    (rng : ℕ → ℝ) (width height : ℝ) (arr : List Particle) : List Particle :=
  updateAux R S width height hand rng arr.length 0 arr

/-- Modelled from the spec: the Force/Integration Step as a pure function of a
pre-tick snapshot — the new state of every particle is computed from the particle
states as they were when the tick began (simultaneous update). -/
noncomputable def updateParticlesSnapshot (R S : ℝ) (hand : Option HandPosition)
    (rng : ℕ → ℝ) (width height : ℝ) (arr : List Particle) : List Particle :=
  (List.range arr.length).map
    (fun i => stepOne R S width height hand (rng i) arr i)

/-! ## C2: boundary clamping -/

set_option maxHeartbeats 1600000 in
theorem finishParticle_bounds (width height alphaDraw : ℝ) (p : Particle)
    (hw : 0 ≤ width) (hh : 0 ≤ height) :
    0 ≤ (finishParticle width height alphaDraw p).x ∧
    (finishParticle width height alphaDraw p).x ≤ width ∧
    0 ≤ (finishParticle width height alphaDraw p).y ∧
    (finishParticle width height alphaDraw p).y ≤ height := by
  unfold finishParticle
  dsimp only
  split_ifs <;> refine ⟨?_, ?_, ?_, ?_⟩ <;> dsimp only <;> linarith

theorem stepOne_bounds (R S width height : ℝ) (hand : Option HandPosition)
    (alphaDraw : ℝ) (arr : List Particle) (i : ℕ)
    (hw : 0 ≤ width) (hh : 0 ≤ height) :
    0 ≤ (stepOne R S width height hand alphaDraw arr i).x ∧
    (stepOne R S width height hand alphaDraw arr i).x ≤ width ∧
    0 ≤ (stepOne R S width height hand alphaDraw arr i).y ∧
    (stepOne R S width height hand alphaDraw arr i).y ≤ height := by
  unfold stepOne
  exact finishParticle_bounds width height alphaDraw _ hw hh

theorem updateAux_length (R S width height : ℝ) (hand : Option HandPosition)
    (rng : ℕ → ℝ) :
    ∀ (fuel i : ℕ) (arr : List Particle),
      (updateAux R S width height hand rng fuel i arr).length = arr.length := by
  intro fuel
  induction fuel with
  | zero => intro i arr; rfl
  | succ fuel ih =>
    intro i arr
    rw [updateAux, ih, List.length_set]

theorem updateAux_bounds (R S width height : ℝ) (hand : Option HandPosition)
    (rng : ℕ → ℝ) (hw : 0 ≤ width) (hh : 0 ≤ height) :
    ∀ (fuel i : ℕ) (arr : List Particle), arr.length ≤ i + fuel →
      (∀ j, j < i → j < arr.length →
        0 ≤ (arr.getD j default).x ∧ (arr.getD j default).x ≤ width ∧
        0 ≤ (arr.getD j default).y ∧ (arr.getD j default).y ≤ height) →
      ∀ j, j < arr.length →
        0 ≤ ((updateAux R S width height hand rng fuel i arr).getD j default).x ∧
        ((updateAux R S width height hand rng fuel i arr).getD j default).x ≤ width ∧
        0 ≤ ((updateAux R S width height hand rng fuel i arr).getD j default).y ∧
        ((updateAux R S width height hand rng fuel i arr).getD j default).y ≤ height := by
  intro fuel
  induction fuel with
  | zero =>
    intro i arr hlen hprev j hj
    exact hprev j (lt_of_lt_of_le hj (by omega)) hj
  | succ fuel ih =>
    intro i arr hlen hprev j hj
    rw [updateAux]
    have hset : (arr.set i (stepOne R S width height hand (rng i) arr i)).length =
        arr.length := List.length_set arr i _
    refine ih (i + 1) _ (by omega) ?_ j (by omega)
    intro k hk hk'
    rcases Nat.lt_or_ge k i with hki | hki
    · have hkarr : k < arr.length := by omega
      have heq : (arr.set i (stepOne R S width height hand (rng i) arr i)).getD
          k default = arr.getD k default := by
        rw [List.getD_eq_getD_get?, List.getD_eq_getD_get?,
          List.get?_set_ne _ _ (by omega)]
      rw [heq]
      exact hprev k hki hkarr
    · have hki' : k = i := by omega
      subst hki'
      have hkarr : k < arr.length := by omega
      have heq : (arr.set k (stepOne R S width height hand (rng k) arr k)).getD
          k default = stepOne R S width height hand (rng k) arr k := by
        rw [List.getD_eq_getD_get?, List.get?_set_eq_of_lt _ hkarr]
        rfl
      rw [heq]
      exact stepOne_bounds R S width height hand (rng k) arr k hw hh

/-- C2. After one tick of `updateParticles` with non-negative canvas
dimensions, the position of every particle lies in [0, width] × [0, height],
whatever the positions and velocities were before the tick. -/
theorem C2_positions_clamped (R S width height : ℝ) (hand : Option HandPosition)
    (rng : ℕ → ℝ) (arr : List Particle) (hw : 0 ≤ width) (hh : 0 ≤ height) :
    ∀ p ∈ updateParticles R S hand rng width height arr,
      0 ≤ p.x ∧ p.x ≤ width ∧ 0 ≤ p.y ∧ p.y ≤ height := by
  intro p hp
  rw [List.mem_iff_getElem] at hp
  obtain ⟨j, hjlen, rfl⟩ := hp
  have hlen : (updateParticles R S hand rng width height arr).length = arr.length :=
    updateAux_length R S width height hand rng arr.length 0 arr
  have hj : j < arr.length := by rw [← hlen]; exact hjlen
  have hthis := updateAux_bounds R S width height hand rng hw hh arr.length 0 arr
    (by omega) (by intro k hk _; omega) j hj
  have hgetD : (updateParticles R S hand rng width height arr).getD j default =
      (updateParticles R S hand rng width height arr)[j] :=
    List.getD_eq_getElem _ _ hjlen
  rw [← hgetD]
  exact hthis

/-- C2 (witness). Concrete tick on a 100×100 canvas with one out-of-bounds
particle. -/
theorem C2_witness :
    ((0:ℝ) ≤ 100) ∧
    ∀ p ∈ updateParticles 150 (1/2) none (fun _ => 0) 100 100
      [⟨250, -40, 3, -2, 1, "", 1, 0, 2⟩],
      0 ≤ p.x ∧ p.x ≤ 100 ∧ 0 ≤ p.y ∧ p.y ≤ 100 :=
  ⟨by norm_num,
   C2_positions_clamped 150 (1/2) 100 100 none (fun _ => 0)
     [⟨250, -40, 3, -2, 1, "", 1, 0, 2⟩] (by norm_num) (by norm_num)⟩

/-! ## Evaluation lemmas for concrete runs -/

theorem applyHand_none (R S : ℝ) (p : Particle) : applyHand R S none p = p := rfl

theorem sqrt_eval (a b : ℝ) (hb : 0 ≤ b) (h : b * b = a) : Real.sqrt a = b := by
  rw [← h, Real.sqrt_mul_self hb]

theorem sqrt_not_lt (a c : ℝ) (h : c * c ≤ a) : ¬ Real.sqrt a < c :=
  not_lt.2 (Real.le_sqrt_of_sq_le (by rw [pow_two]; exact h))

theorem sepBody_skip (i : ℕ) (acc : Particle) (jo : ℕ × Particle)
    (h : jo.1 = i) : sepBody i acc jo = acc := by
  unfold sepBody
  rw [if_pos h]

theorem sepBody_far (i : ℕ) (acc : Particle) (jo : ℕ × Particle) (h : jo.1 ≠ i)
    (hfar : ¬ Real.sqrt ((jo.2.x - acc.x) * (jo.2.x - acc.x) +
      (jo.2.y - acc.y) * (jo.2.y - acc.y)) < 20) :
    sepBody i acc jo = acc := by
  unfold sepBody
  rw [if_neg h]
  dsimp only
  rw [if_neg (fun hc => hfar hc.1)]

theorem sepBody_near (i : ℕ) (acc : Particle) (jo : ℕ × Particle) (h : jo.1 ≠ i)
    (d : ℝ)
    (hd : Real.sqrt ((jo.2.x - acc.x) * (jo.2.x - acc.x) +
      (jo.2.y - acc.y) * (jo.2.y - acc.y)) = d)
    (h20 : d < 20) (h0 : 0 < d) :
    sepBody i acc jo =
      { acc with
        vx := acc.vx - (jo.2.x - acc.x) / d * ((20 - d) / 20 * 0.05)
        vy := acc.vy - (jo.2.y - acc.y) / d * ((20 - d) / 20 * 0.05) } := by
  unfold sepBody
  rw [if_neg h]
  dsimp only
  rw [hd, if_pos ⟨h20, h0⟩]

theorem finishParticle_interior (width height alphaDraw : ℝ) (p : Particle)
    (h1 : ¬ p.x + p.vx * 0.98 < 0) (h2 : ¬ p.x + p.vx * 0.98 > width)
    (h3 : ¬ p.y + (p.vy * 0.98 + 0.02) < 0)
    (h4 : ¬ p.y + (p.vy * 0.98 + 0.02) > height)
    (h5 : ¬ p.life + 1 > p.maxLife) :
    finishParticle width height alphaDraw p =
      { p with
        x := p.x + p.vx * 0.98
        y := p.y + (p.vy * 0.98 + 0.02)
        vx := p.vx * 0.98
        vy := p.vy * 0.98 + 0.02
        life := p.life + 1 } := by
  unfold finishParticle
  dsimp only
  simp only [if_neg h1, if_neg h3]
  simp only [if_neg h2, if_neg h4, if_neg h5]

/-! ## C4: sequential in-place update vs snapshot update -/

/-- First particle of the C4 run: at (100,100), moving fast to the left. -/
noncomputable def pA : Particle := ⟨100, 100, -10, 0, 1, "", 1, 0, 2⟩

/-- Second particle of the C4 run: at rest at (119,100), 19px from the first. -/
noncomputable def pB : Particle := ⟨119, 100, 0, 0, 1, "", 1, 0, 2⟩

/-- State of the first particle after its sequential update. -/
noncomputable def pA1 : Particle :=
  ⟨1803951/20000, 5001/50, -196049/20000, 1/50, 1, "", 1, 1, 2⟩

/-- State of the second particle after the sequential tick (the first particle
has already moved out of separation range, so no separation force acts). -/
noncomputable def pBseq : Particle := ⟨119, 5001/50, 0, 1/50, 1, "", 1, 1, 2⟩

/-- State of the second particle under the snapshot semantics (the first
particle is still at its pre-tick position 19px away, so the separation force
acts). -/
noncomputable def pBsnap : Particle :=
  ⟨2380049/20000, 5001/50, 49/20000, 1/50, 1, "", 1, 1, 2⟩

theorem sepA : applySeparation [pA, pB] 0 pA =
    ⟨100, 100, -4001/400, 0, 1, "", 1, 0, 2⟩ := by
  rw [show applySeparation [pA, pB] 0 pA =
    sepBody 0 (sepBody 0 pA (0, pA)) (1, pB) from rfl]
  rw [sepBody_skip 0 pA (0, pA) rfl]
  rw [sepBody_near 0 pA (1, pB) (by norm_num) 19
    (sqrt_eval _ 19 (by norm_num) (by simp only [pA, pB]; norm_num))
    (by norm_num) (by norm_num)]
  simp only [pA, pB, Particle.mk.injEq]
  norm_num

theorem stepA : stepOne 150 0.5 1000 1000 none 0 [pA, pB] 0 = pA1 := by
  unfold stepOne
  rw [show ([pA, pB].getD 0 default) = pA from rfl, applyHand_none, sepA]
  rw [finishParticle_interior 1000 1000 0 _
    (by norm_num) (by norm_num) (by norm_num) (by norm_num) (by norm_num)]
  simp only [pA1, Particle.mk.injEq]
  norm_num

theorem sepBseq : applySeparation [pA1, pB] 1 pB = pB := by
  rw [show applySeparation [pA1, pB] 1 pB =
    sepBody 1 (sepBody 1 pB (0, pA1)) (1, pB) from rfl]
  rw [sepBody_far 1 pB (0, pA1) (by norm_num)
    (sqrt_not_lt _ 20 (by simp only [pA1, pB]; norm_num))]
  rw [sepBody_skip 1 pB (1, pB) rfl]

theorem stepBseq : stepOne 150 0.5 1000 1000 none 0 [pA1, pB] 1 = pBseq := by
  unfold stepOne
  rw [show ([pA1, pB].getD 1 default) = pB from rfl, applyHand_none, sepBseq]
  rw [finishParticle_interior 1000 1000 0 pB
    (by simp only [pB]; norm_num) (by simp only [pB]; norm_num)
    (by simp only [pB]; norm_num) (by simp only [pB]; norm_num)
    (by simp only [pB]; norm_num)]
  simp only [pB, pBseq, Particle.mk.injEq]
  norm_num

theorem sepBsnap : applySeparation [pA, pB] 1 pB =
    ⟨119, 100, 1/400, 0, 1, "", 1, 0, 2⟩ := by
  rw [show applySeparation [pA, pB] 1 pB =
    sepBody 1 (sepBody 1 pB (0, pA)) (1, pB) from rfl]
  rw [sepBody_near 1 pB (0, pA) (by norm_num) 19
    (sqrt_eval _ 19 (by norm_num) (by simp only [pA, pB]; norm_num))
    (by norm_num) (by norm_num)]
  rw [sepBody_skip 1 _ (1, pB) rfl]
  simp only [pA, pB, Particle.mk.injEq]
  norm_num

theorem stepBsnap : stepOne 150 0.5 1000 1000 none 0 [pA, pB] 1 = pBsnap := by
  unfold stepOne
  rw [show ([pA, pB].getD 1 default) = pB from rfl, applyHand_none, sepBsnap]
  rw [finishParticle_interior 1000 1000 0 _
    (by norm_num) (by norm_num) (by norm_num) (by norm_num) (by norm_num)]
  simp only [pBsnap, Particle.mk.injEq]
  norm_num

/-- C4 (counterexample). The in-place sequential tick differs from the
simultaneous snapshot tick: with two resting-range particles 19px apart and a
fast-moving first particle, the sequential update moves the first particle out
of separation range before the second is processed, so the second particle
receives no separation impulse, while the snapshot update gives it one. -/
theorem C4_counterexample :
    updateParticles 150 0.5 none (fun _ => 0) 1000 1000 [pA, pB] ≠
      updateParticlesSnapshot 150 0.5 none (fun _ => 0) 1000 1000 [pA, pB] := by
  have hseq : updateParticles 150 0.5 none (fun _ => 0) 1000 1000 [pA, pB] =
      [pA1, pBseq] := by
    unfold updateParticles
    rw [show ([pA, pB] : List Particle).length = 2 from rfl]
    simp only [updateAux]
    rw [stepA]
    rw [show ([pA, pB].set 0 pA1) = [pA1, pB] from rfl]
    rw [stepBseq]
    rfl
  have hsnap : updateParticlesSnapshot 150 0.5 none (fun _ => 0) 1000 1000
      [pA, pB] = [pA1, pBsnap] := by
    unfold updateParticlesSnapshot
    rw [show ([pA, pB] : List Particle).length = 2 from rfl]
    rw [show List.range 2 = [0, 1] from rfl]
    simp only [List.map_cons, List.map_nil]
    rw [stepA, stepBsnap]
  rw [hseq, hsnap]
  intro h
  simp only [List.cons.injEq, and_true] at h
  have hx := congrArg Particle.x h.2
  simp only [pBseq, pBsnap] at hx
  norm_num at hx

theorem updateAux_getD_lt (R S width height : ℝ) (hand : Option HandPosition)
    (rng : ℕ → ℝ) :
    ∀ (fuel i j : ℕ) (arr : List Particle), j < i →
      (updateAux R S width height hand rng fuel i arr).getD j default =
        arr.getD j default := by
  intro fuel
  induction fuel with
  | zero => intro i j arr hj; rfl
  | succ fuel ih =>
    intro i j arr hj
    rw [updateAux]
    rw [ih (i + 1) j _ (by omega)]
    rw [List.getD_eq_getD_get?, List.getD_eq_getD_get?,
      List.get?_set_ne _ _ (by omega)]

/-- C4 (amended). One tick is a deterministic function of the pre-tick state,
but computed by a sequential in-place pass in which each particle reads the
already-updated states of earlier particles; it coincides with the
simultaneous snapshot update on the first particle of the list (which reads
only pre-tick state). -/
theorem C4_first_particle_agrees (R S width height : ℝ)
    (hand : Option HandPosition) (rng : ℕ → ℝ) (arr : List Particle)
    (hne : arr ≠ []) :
    (updateParticles R S hand rng width height arr).getD 0 default =
      (updateParticlesSnapshot R S hand rng width height arr).getD 0 default := by
  obtain ⟨b, t, rfl⟩ := List.exists_cons_of_ne_nil hne
  unfold updateParticles updateParticlesSnapshot
  rw [show (b :: t).length = t.length + 1 from rfl]
  rw [updateAux]
  rw [updateAux_getD_lt R S width height hand rng t.length 1 0 _ (by omega)]
  rw [List.range_succ_eq_map]
  simp only [List.map_cons]
  rfl

/-- C4 (witness for the amended claim). Singleton run where the sequential and
snapshot ticks agree on the first particle. -/
theorem C4_first_particle_agrees_witness :
    (([scenarioParticle] : List Particle) ≠ []) ∧
    (updateParticles 150 (1/2) none (fun _ => 0) 1000 1000
        [scenarioParticle]).getD 0 default =
      (updateParticlesSnapshot 150 (1/2) none (fun _ => 0) 1000 1000
        [scenarioParticle]).getD 0 default :=
  ⟨List.cons_ne_nil _ _,
   C4_first_particle_agrees 150 (1/2) 1000 1000 none (fun _ => 0)
     [scenarioParticle] (List.cons_ne_nil _ _)⟩

/-! ## C5: connection lines of renderParticles -/

/-- One canvas line segment: moveTo(x1, y1), lineTo(x2, y2), drawn with
globalAlpha `alpha`. -/
structure Segment where
  x1 : ℝ
  y1 : ℝ
  x2 : ℝ
  y2 : ℝ
  alpha : ℝ

instance : Inhabited Segment := ⟨⟨0, 0, 0, 0, 0⟩⟩

/-- Inner body of the connection-line double loop of `renderParticles` for the
pair (i, j): when the two particles are closer than 50px the source calls
moveTo(particles[i].x, particles[j].y) and lineTo(particles[j].x,
particles[j].y) with globalAlpha (50 − d)/50 · 0.3. -/
noncomputable def connBody (particles : List Particle) (i j : ℕ) : Option Segment :=
  let a := particles.getD i default
  let b := particles.getD j default
  let dx := a.x - b.x
  let dy := a.y - b.y
  let distance := Real.sqrt (dx * dx + dy * dy)
  if distance < 50 then
    some ⟨a.x, b.y, b.x, b.y, (50 - distance) / 50 * 0.3⟩
  else none

/-- The list of connection line segments drawn by one `renderParticles` frame,
in loop order (i from 0, j from i+1). -/
noncomputable def connectionSegments (particles : List Particle) : List Segment :=
  (List.range particles.length).flatMap (fun i =>
    (List.range' (i + 1) (particles.length - (i + 1))).filterMap
      (connBody particles i))

/-- First particle of the C5 run, at (0, 0). -/
noncomputable def q1 : Particle := ⟨0, 0, 0, 0, 1, "", 1, 0, 2⟩

/-- Second particle of the C5 run, at (18, 24), distance 30 from the first. -/
noncomputable def q2 : Particle := ⟨18, 24, 0, 0, 1, "", 1, 0, 2⟩

theorem connBody_q : connBody [q1, q2] 0 1 =
    some ⟨0, 24, 18, 24, (50 - 30) / 50 * 0.3⟩ := by
  unfold connBody
  dsimp only
  rw [show ([q1, q2].getD 0 default) = q1 from rfl,
    show ([q1, q2].getD 1 default) = q2 from rfl]
  simp only [q1, q2]
  rw [sqrt_eval _ 30 (by norm_num) (by norm_num), if_pos (by norm_num : (30:ℝ) < 50)]

/-- C5 (code evaluated at the failing input). For the pair q1 = (0,0) and
q2 = (18,24) at distance 30 < 50, the single segment drawn starts at (0, 24)
— particles[i].x paired with particles[j].y — which is not the q1
particle position (0, 0): the moveTo endpoint is not the first particle of the pair. -/
theorem C5_moveTo_wrong_endpoint :
    connectionSegments [q1, q2] =
      [⟨0, 24, 18, 24, (50 - 30) / 50 * 0.3⟩] ∧
    ((q1.x, q1.y) ≠ ((0:ℝ), (24:ℝ))) := by
  constructor
  · unfold connectionSegments
    rw [show ([q1, q2] : List Particle).length = 2 from rfl]
    rw [show List.range 2 = [0, 1] from rfl]
    simp only [List.flatMap_cons, List.flatMap_nil]
    rw [show List.range' (0 + 1) (2 - (0 + 1)) = [1] from rfl]
    rw [show List.range' (1 + 1) (2 - (1 + 1)) = ([] : List ℕ) from rfl]
    rw [List.filterMap_cons_some connBody_q]
    simp
  · intro h
    have hy := congrArg Prod.snd h
    simp only [q1] at hy
    norm_num at hy

/-! ## Motion-based pointer estimator (useHandTracking.ts) -/

/-- Pointer estimate emitted by the estimator, as in the `HandData` interface
of useHandTracking.ts (coordinates in video space). -/
structure HandData where
  x : ℚ
  y : ℚ
  isOpen : Bool
deriving DecidableEq

/-- One analysis frame: the raw pixel buffer of the analysis canvas
(`data k` is the k-th byte of the ImageData, RGBA interleaved). -/
structure Frame where
  width : ℕ
  height : ℕ
  data : ℕ → ℤ

/-- Per-sampled-pixel difference of `processFrame`: mean over the three color
channels of the absolute current/previous differences,
`(rDiff + gDiff + bDiff) / 3`. -/
def pixelDiff (cur prev : ℕ → ℤ) (i : ℕ) : ℚ :=
  (((|cur i - prev i| + |cur (i + 1) - prev (i + 1)| +
    |cur (i + 2) - prev (i + 2)|) : ℤ) : ℚ) / 3

/-- The sampled pixel at byte offset `i` counts as a motion pixel exactly when
its `pixelDiff` exceeds the fixed threshold 25 of `processFrame`. -/
def isMotionPixel (cur prev : ℕ → ℤ) (i : ℕ) : Bool :=
  decide (pixelDiff cur prev i > 25)

/-- Sum across the three color channels of the absolute differences between
the current and previous frame at byte offset `i` (the quantity that the
motion-pixel sentence of the spec describes). -/
def sumAbsDiff (cur prev : ℕ → ℤ) (i : ℕ) : ℤ :=
  |cur i - prev i| + |cur (i + 1) - prev (i + 1)| + |cur (i + 2) - prev (i + 2)|

/-- Sampled coordinates of the analysis double loop: (y, x) pairs with both
coordinates stepping by 4, y outer, x inner. -/
def sampleCoords (width height : ℕ) : List (ℕ × ℕ) :=
  ((List.range height).filter (fun y => y % 4 = 0)).flatMap
    (fun y => ((List.range width).filter (fun x => x % 4 = 0)).map
      (fun x => (y, x)))

/-- Loop body of the motion scan: on a motion pixel, accumulate the mirrored
x coordinate (`width - x`), the y coordinate, and bump the count. -/
def motionBody (cur prev : Frame) (acc : ℚ × ℚ × ℕ) (yx : ℕ × ℕ) : ℚ × ℚ × ℕ :=
  let i := (yx.1 * cur.width + yx.2) * 4
  if isMotionPixel cur.data prev.data i then
    (acc.1 + ((cur.width : ℚ) - (yx.2 : ℚ)), acc.2.1 + (yx.1 : ℚ), acc.2.2 + 1)
  else acc

/-- Motion accumulators (motionX, motionY, motionCount) of one analysis tick. -/
def motionStats (cur prev : Frame) : ℚ × ℚ × ℕ :=
  (sampleCoords cur.width cur.height).foldl (motionBody cur prev) (0, 0, 0)

/-- One analysis tick of `processFrame`, after the video frame has been read
back as `cur`: the first component is `none` when the hand-update callback is
not invoked at all, `some none` when it is invoked with null, `some (some h)`
when a pointer is emitted; the second component is the new previous-frame
buffer, always the current frame. -/
def processFrame (prev : Option Frame) (cur : Frame)
    (videoWidth videoHeight : ℚ) : Option (Option HandData) × Option Frame :=
  match prev with
  | none => (none, some cur)
  | some prevFrame =>
    let stats := motionStats cur prevFrame
    if stats.2.2 > 30 then
      (some (some
        { x := stats.1 / (stats.2.2 : ℚ) * (videoWidth / (cur.width : ℚ))
          y := stats.2.1 / (stats.2.2 : ℚ) * (videoHeight / (cur.height : ℚ))
          isOpen := stats.2.2 > 150 }), some cur)
    else (some none, some cur)

/-- Shared pointer slot of the consumer (`handleHandUpdate` →
`setHandPosition` wiring): a published update overwrites the slot, no
invocation leaves it untouched. -/
def applyHandUpdate (slot : Option HandData) (out : Option (Option HandData)) :
    Option HandData :=
  match out with
  | none => slot
  | some v => v

/-! ## C3: motion-pixel threshold -/

/-- C3 (counterexample). No fixed threshold T in [25, 30] on the SUM of the
three channel differences characterizes the motion-pixel test: the code
compares the mean (sum/3) against 25, so a pixel with channel differences
(31, 0, 0) has sum 31 > T yet is not counted. -/
theorem C3_counterexample :
    ¬ ∃ T : ℚ, 25 ≤ T ∧ T ≤ 30 ∧
      ∀ (cur prev : ℕ → ℤ) (i : ℕ),
        isMotionPixel cur prev i = true ↔
          T < ((sumAbsDiff cur prev i : ℤ) : ℚ) := by
  rintro ⟨T, hT1, hT2, hall⟩
  have hsum : ((sumAbsDiff (fun k => if k = 0 then 31 else 0) (fun _ => 0) 0 :
      ℤ) : ℚ) = 31 := by norm_num [sumAbsDiff]
  have h1 := (hall (fun k => if k = 0 then 31 else 0) (fun _ => 0) 0).mpr
    (by rw [hsum]; linarith)
  have h2 : isMotionPixel (fun k => if k = 0 then 31 else 0) (fun _ => 0) 0 =
      false := by norm_num [isMotionPixel, pixelDiff]
  rw [h2] at h1
  exact Bool.false_ne_true h1

/-- C3 (amended). A sampled pixel is a motion pixel iff the sum across the
three color channels of the absolute differences exceeds 75 — equivalently,
iff the per-channel mean (sum/3) exceeds the fixed threshold 25. -/
theorem C3_motion_pixel_sum_threshold (cur prev : ℕ → ℤ) (i : ℕ) :
    isMotionPixel cur prev i = true ↔ 75 < sumAbsDiff cur prev i := by
  unfold isMotionPixel pixelDiff sumAbsDiff
  rw [decide_eq_true_iff]
  rw [gt_iff_lt, lt_div_iff (by norm_num : (0:ℚ) < 3)]
  constructor <;> intro h
  · exact_mod_cast h
  · exact_mod_cast h

/-! ## C9 and C10: estimator output -/

/-- C9. Identical consecutive frames produce zero motion pixels; whenever the
motion-pixel count is not above 30 the callback is invoked with null; and in
every case the current frame becomes the new previous frame. -/
theorem C9_below_threshold_null (videoWidth videoHeight : ℚ) (cur : Frame) :
    (motionStats cur cur).2.2 = 0 ∧
    (∀ prevFrame : Frame, (motionStats cur prevFrame).2.2 ≤ 30 →
      (processFrame (some prevFrame) cur videoWidth videoHeight).1 =
        some none) ∧
    (∀ prev : Option Frame,
      (processFrame prev cur videoWidth videoHeight).2 = some cur) := by
  refine ⟨?_, ?_, ?_⟩
  · have hpix : ∀ i, isMotionPixel cur.data cur.data i = false := by
      intro i
      unfold isMotionPixel pixelDiff
      simp
    have hbody : ∀ acc yx, motionBody cur cur acc yx = acc := by
      intro acc yx
      simp [motionBody, hpix]
    have hfold : ∀ (l : List (ℕ × ℕ)) (acc : ℚ × ℚ × ℕ),
        l.foldl (motionBody cur cur) acc = acc := by
      intro l
      induction l with
      | nil => intro acc; rfl
      | cons hd tl ih =>
        intro acc
        rw [List.foldl_cons, hbody acc hd]
        exact ih acc
    unfold motionStats
    rw [hfold]
  · intro prevFrame hle
    unfold processFrame
    dsimp only
    rw [if_neg (by omega : ¬ (motionStats cur prevFrame).2.2 > 30)]
  · intro prev
    cases prev with
    | none => rfl
    | some prevFrame =>
      unfold processFrame
      dsimp only
      by_cases h : (motionStats cur prevFrame).2.2 > 30
      · rw [if_pos h]
      · rw [if_neg h]

/-- Frame used by the estimator witnesses: a 0×0 all-zero buffer. -/
def emptyFrame : Frame := ⟨0, 0, fun _ => 0⟩

/-- C9 (witness). On the concrete empty frame, the count is ≤ 30 and null is
emitted. -/
theorem C9_witness :
    ((motionStats emptyFrame emptyFrame).2.2 ≤ 30) ∧
    (processFrame (some emptyFrame) emptyFrame 320 240).1 = some none :=
  ⟨by decide,
   (C9_below_threshold_null 320 240 emptyFrame).2.1 emptyFrame (by decide)⟩

/-- C10. On an analysis tick with no previous frame, `processFrame` does not
invoke the hand-update callback at all (neither a pointer nor null is
published, so any shared pointer slot keeps its value), and the captured frame
is stored as the previous frame. -/
theorem C10_no_prev_frame (cur : Frame) (videoWidth videoHeight : ℚ) :
    processFrame none cur videoWidth videoHeight = (none, some cur) ∧
    ∀ slot : Option HandData,
      applyHandUpdate slot (processFrame none cur videoWidth videoHeight).1 =
        slot :=
  ⟨rfl, fun _ => rfl⟩

/-! ## C8: initialization -/

/-- C8. With `Math.random()` draws in [0, 1) and non-negative canvas
dimensions, `initParticles` builds exactly `count` particles, each with
position in [0,width]×[0,height], velocity components in [-1,1], radius in
[1,4], a colour from the fixed 5-entry palette, alpha in [0.5,1], initial life
in [0,100) and lifespan in [100,200); and the store assignment replaces any
existing particle set wholesale. -/
theorem C8_initParticles_spec (rng : ℕ → ℝ) (width height : ℝ) (count : ℕ)
    (hw : 0 ≤ width) (hh : 0 ≤ height)
    (hr : ∀ k, 0 ≤ rng k ∧ rng k < 1) :
    (initParticles rng width height count).length = count ∧
    (∀ oldStore : List Particle,
      initStore oldStore rng width height count =
        initParticles rng width height count) ∧
    ∀ p ∈ initParticles rng width height count,
      0 ≤ p.x ∧ p.x ≤ width ∧ 0 ≤ p.y ∧ p.y ≤ height ∧
      -1 ≤ p.vx ∧ p.vx ≤ 1 ∧ -1 ≤ p.vy ∧ p.vy ≤ 1 ∧
      1 ≤ p.radius ∧ p.radius ≤ 4 ∧
      p.color ∈ PARTICLE_COLORS ∧
      1/2 ≤ p.alpha ∧ p.alpha ≤ 1 ∧
      0 ≤ p.life ∧ p.life < 100 ∧
      100 ≤ p.maxLife ∧ p.maxLife < 200 := by
  refine ⟨by simp [initParticles], fun oldStore => rfl, ?_⟩
  intro p hp
  simp only [initParticles, List.mem_map, List.mem_range] at hp
  obtain ⟨i, hi, rfl⟩ := hp
  unfold mkParticle
  dsimp only
  obtain ⟨h0a, h0b⟩ := hr (9 * i + 0)
  obtain ⟨h1a, h1b⟩ := hr (9 * i + 1)
  obtain ⟨h2a, h2b⟩ := hr (9 * i + 2)
  obtain ⟨h3a, h3b⟩ := hr (9 * i + 3)
  obtain ⟨h4a, h4b⟩ := hr (9 * i + 4)
  obtain ⟨h5a, h5b⟩ := hr (9 * i + 5)
  obtain ⟨h6a, h6b⟩ := hr (9 * i + 6)
  obtain ⟨h7a, h7b⟩ := hr (9 * i + 7)
  obtain ⟨h8a, h8b⟩ := hr (9 * i + 8)
  have hcolor : PARTICLE_COLORS.getD
      (Int.floor (rng (9 * i + 5) * (PARTICLE_COLORS.length : ℝ))).toNat default ∈
      PARTICLE_COLORS := by
    have hlen : ((PARTICLE_COLORS.length : ℤ) : ℝ) = (PARTICLE_COLORS.length : ℝ) := by
      push_cast
      rfl
    have hnn : (0:ℤ) ≤ Int.floor (rng (9 * i + 5) * (PARTICLE_COLORS.length : ℝ)) :=
      Int.floor_nonneg.2 (mul_nonneg h5a (by positivity))
    have hlt : Int.floor (rng (9 * i + 5) * (PARTICLE_COLORS.length : ℝ)) <
        (PARTICLE_COLORS.length : ℤ) := by
      rw [Int.floor_lt, hlen]
      have hpos : (0:ℝ) < (PARTICLE_COLORS.length : ℝ) := by
        norm_num [PARTICLE_COLORS]
      nlinarith
    have hidx : (Int.floor (rng (9 * i + 5) *
        (PARTICLE_COLORS.length : ℝ))).toNat < PARTICLE_COLORS.length := by
      rw [← Int.toNat_lt hnn] at hlt
      exact_mod_cast hlt
    rw [List.getD_eq_get _ _ hidx]
    exact List.get_mem _ _ _
  refine ⟨mul_nonneg h0a hw, ?_, mul_nonneg h1a hh, ?_, by linarith, by linarith,
    by linarith, by linarith, by linarith, by linarith, hcolor, by linarith,
    by linarith, by nlinarith, by nlinarith, by nlinarith, by nlinarith⟩
  · nlinarith
  · nlinarith

/-- C8 (witness). A concrete three-particle initialization with all random
draws equal to 0 on a 10×10 canvas. -/
theorem C8_witness :
    ((0:ℝ) ≤ 10) ∧
    (∀ k : ℕ, 0 ≤ (fun _ : ℕ => (0:ℝ)) k ∧ (fun _ : ℕ => (0:ℝ)) k < 1) ∧
    (initParticles (fun _ => 0) 10 10 3).length = 3 :=
  ⟨by norm_num, fun _ => ⟨le_refl 0, by norm_num⟩,
   (C8_initParticles_spec (fun _ => 0) 10 10 3 (by norm_num) (by norm_num)
     (fun _ => ⟨le_refl 0, by norm_num⟩)).1⟩

end ParticleFluid
